import Mathlib

/-!
Verification development for the nearby-gas-station-finder frontend.

The JavaScript source is shallowly embedded in Lean:
* JS numbers (IEEE float64) are modelled as `ℚ`; the transcendental
  primitives used by the haversine formula (`Math.sin`, `Math.cos`,
  `Math.atan2`, `Math.sqrt`, `Math.PI`) are abstracted into a record of
  functions `MathPrims`, so every definition stays computable and the
  data-flow of the source is preserved exactly.
* `null`/`undefined`/missing object fields are modelled with `Option`.
* The asynchronous provider calls (Places nearby search, Distance Matrix)
  are modelled by passing the outcome of the call as an explicit
  `Except`/value parameter: the embedded function describes what the code
  does with each possible outcome.
-/

set_option autoImplicit false

namespace GasFinder

/-- Abstract transcendental primitives (`Math.sin`, `Math.cos`, `Math.atan2`,
`Math.sqrt`, `Math.PI`) used by `haversineMeters` in
`src/utils/distance.js`.  Keeping them abstract makes the embedding
computable while preserving the exact expression structure of the source. -/
structure MathPrims where
  sin : ℚ → ℚ
  cos : ℚ → ℚ
  atan2 : ℚ → ℚ → ℚ
  sqrt : ℚ → ℚ
  pi : ℚ

/-- A concrete instantiation of the math primitives (used to evaluate the
model on concrete inputs; the theorems hold for every instantiation). -/
def zeroPrims : MathPrims :=
  { sin := fun _ => 0, cos := fun _ => 0, atan2 := fun _ _ => 0
    sqrt := fun _ => 0, pi := 0 }

/-- Embedding of `haversineMeters(lat1, lon1, lat2, lon2)` from
`src/utils/distance.js`: straight-line (great-circle) distance in meters,
Earth radius 6371000 m. -/
def haversineMeters (M : MathPrims) (lat1 lon1 lat2 lon2 : ℚ) : ℚ :=
  let toRad : ℚ → ℚ := fun d => d * M.pi / 180
  let R : ℚ := 6371000
  let dLat := toRad (lat2 - lat1)
  let dLon := toRad (lon2 - lon1)
  let a :=
    M.sin (dLat / 2) * M.sin (dLat / 2) +
      M.cos (toRad lat1) * M.cos (toRad lat2) *
        M.sin (dLon / 2) * M.sin (dLon / 2)
  let c := 2 * M.atan2 (M.sqrt a) (M.sqrt (1 - a))
  R * c

/-- Embedding of `metersToKm` from `src/utils/distance.js`. -/
def metersToKm (m : ℚ) : ℚ := m / 1000

/-- A JS number argument as received by `formatDistance`: it may be `null`,
`undefined`, `NaN`, or an actual (finite) number. -/
inductive JsNum where
  | null
  | undef
  | nan
  | num (q : ℚ)
deriving DecidableEq, Repr

/-- `Math.round` on a finite nonnegative-or-negative number: round half
toward positive infinity, i.e. `⌊x + 1/2⌋` (ECMA-262 semantics). -/
def jsRound (q : ℚ) : ℤ := ⌊q + 1 / 2⌋

/-- `Number.prototype.toFixed(1)` for a finite number: round to the nearest
multiple of `0.1` (ties toward positive infinity, per ECMA-262 which picks
the larger candidate) and print with exactly one digit after the point.
Only ever applied to `km ≥ 1` in the source. -/
def toFixed1 (q : ℚ) : String :=
  let n : ℤ := ⌊q * 10 + 1 / 2⌋
  toString (n / 10) ++ "." ++ toString (n % 10)

/-- `Number.prototype.toFixed(0)` for a finite number. -/
def toFixed0 (q : ℚ) : String := toString ⌊q + 1 / 2⌋

/-- Embedding of `formatDistance(meters)` from `src/utils/distance.js`:

    if (meters == null || Number.isNaN(meters)) return '';
    if (meters < 1000) return `(Math.round(meters)) m`;
    const km = metersToKm(meters);
    return `(km.toFixed(km < 10 ? 1 : 0)) km`;

`meters == null` is true exactly for `null` and `undefined`. -/
def formatDistance : JsNum → String
  | .null => ""
  | .undef => ""
  | .nan => ""
  | .num meters =>
      if meters < 1000 then
        toString (jsRound meters) ++ " m"
      else
        let km := metersToKm meters
        (if km < 10 then toFixed1 km else toFixed0 km) ++ " km"

/-- Embedding of `formatDistanceKm` from `src/utils/distance.js`
(an alias of `formatDistance`). -/
def formatDistanceKm (m : JsNum) : String := formatDistance m

end GasFinder

namespace GasFinder

/-! ### Feature flags (`src/utils/featureFlags.js`)

JS strings are `String`; the string operations the source uses
(`split`, `trim`, `toLowerCase`) are embedded as char-list computations so
that every definition reduces in the kernel. -/

/-- A character matched by the separator regex `/[;,]/`. -/
def isSepChar (c : Char) : Bool := c = ',' || c = ';'

/-- Split a char list at every character satisfying `p`
(JS `String.prototype.split` semantics: `""` splits to `[""]`,
adjacent separators produce empty fields). -/
def splitOnPredAux (p : Char → Bool) : List Char → List Char → List (List Char)
  | [], acc => [acc.reverse]
  | c :: cs, acc =>
      if p c then acc.reverse :: splitOnPredAux p cs []
      else splitOnPredAux p cs (c :: acc)

/-- JS `s.split(...)` on a character class. -/
def jsSplit (p : Char → Bool) (s : String) : List String :=
  (splitOnPredAux p s.data []).map (fun l => ⟨l⟩)

/-- JS `s.trim()`: drop whitespace from both ends. -/
def jsTrim (s : String) : String :=
  ⟨((s.data.dropWhile Char.isWhitespace).reverse.dropWhile Char.isWhitespace).reverse⟩

/-- JS `s.toLowerCase()` (ASCII, which is all the source compares against). -/
def jsToLower (s : String) : String := ⟨s.data.map Char.toLower⟩

/-- The truthiness test of `parseFeatureFlags` for a nonempty value part:
`lower === 'true' || lower === '1' || lower === 'yes'`. -/
def truthyFlagValue (v : String) : Bool :=
  let lower := jsToLower v
  lower = "true" || lower = "1" || lower = "yes"

/-- JS object assignment `flags[k] = b`: replace the value at an existing
key (keeping insertion order) or append a new binding. -/
def setFlag : List (String × Bool) → String → Bool → List (String × Bool)
  | [], k, b => [(k, b)]
  | (k', b') :: rest, k, b =>
      if k' = k then (k', b) :: rest else (k', b') :: setFlag rest k b

/-- JS object property read `flags[k]` (first binding, which is the only
binding since `setFlag` never duplicates keys). -/
def lookupFlag : List (String × Bool) → String → Option Bool
  | [], _ => none
  | (k', b) :: rest, k => if k' = k then some b else lookupFlag rest k

/-- The loop body of `parseFeatureFlags` from `src/utils/featureFlags.js`:

    const [k, v] = p.split('=').map(s => s.trim());
    if (!k) continue;
    if (v == null || v === '') { flags[k] = true; }
    else { const lower = v.toLowerCase();
           flags[k] = (lower === 'true' || lower === '1' || lower === 'yes'); }
-/
def applyPair (flags : List (String × Bool)) (p : String) : List (String × Bool) :=
  let parts := (jsSplit (fun c => c = '=') p).map jsTrim
  let key := parts.headD ""
  if key = "" then flags
  else
    match parts[1]? with
    | none => setFlag flags key true
    | some v => if v = "" then setFlag flags key true
                else setFlag flags key (truthyFlagValue v)

/-- The key a pair string contributes (first `=`-part, trimmed). -/
def pairKey (p : String) : String :=
  ((jsSplit (fun c => c = '=') p).map jsTrim).headD ""

/-- The boolean value a pair string contributes: `true` when there is no
`=` or the value part trims to empty, otherwise the truthiness test. -/
def pairTruth (p : String) : Bool :=
  match ((jsSplit (fun c => c = '=') p).map jsTrim)[1]? with
  | none => true
  | some v => if v = "" then true else truthyFlagValue v

/-- The pair strings of an env string:
`envString.split(/[;,]/).map(s => s.trim()).filter(Boolean)`. -/
def pairList (s : String) : List String :=
  ((jsSplit isSepChar s).map jsTrim).filter (fun p => p ≠ "")

/-- Embedding of `parseFeatureFlags(envString)` from
`src/utils/featureFlags.js`.  The argument is `none` for a non-string
input (`undefined`, `null`, a number, …); `!envString` is also true for
the empty string. -/
def parseFeatureFlags : Option String → List (String × Bool)
  | none => []
  | some s => if s = "" then [] else (pairList s).foldl applyPair []

/-- First `Option Bool` if present, otherwise the second. -/
def orElseOpt (a b : Option Bool) : Option Bool :=
  match a with
  | some x => some x
  | none => b

/-! ### Distance enrichment (`src/services/placesService.js`)

`computeDistancesIfEnabled({ google, origins, places, flags })` either uses
the Distance Matrix provider (when feature-flagged, an origin exists and
the place list is nonempty) or falls back to straight-line haversine
distances.  The asynchronous provider call is embedded as an explicit
`Except Unit DMResponse` parameter: `.error` is a rejected promise
(status other than OK, missing response, or a thrown exception) and
`.ok` a resolved one. -/

/-- A geographic coordinate `{ lat, lng }`. -/
structure Coord where
  lat : ℚ
  lng : ℚ
deriving DecidableEq, Repr

/-- A place as it flows through the enrichment pipeline.  `position`
collapses the two coordinate representations the source accepts
(`p.geometry.location` with `lat()`/`lng()` methods, or a plain
`p.location` literal): `some` when either is present, `none` when the
place carries no coordinate.  The enrichment fields are `none` until
(and unless) enrichment sets them. -/
structure Place where
  place_id : String
  name : String
  vicinity : Option String := none
  rating : Option ℚ := none
  position : Option Coord := none
  distanceMeters : Option ℚ := none
  distanceText : Option String := none
  durationText : Option String := none
deriving DecidableEq, Repr

/-- A Distance Matrix element's `distance` object (`value` in meters,
`text` human-readable); either field may be missing in a malformed or
failed element. -/
structure DMDistance where
  value : Option ℚ
  text : Option String
deriving DecidableEq, Repr

/-- One element of a Distance Matrix response row.  A per-element failure
(e.g. status `NOT_FOUND`) carries no `distance`; `duration` holds the
`duration.text` when present. -/
structure DMElement where
  distance : Option DMDistance
  duration : Option String
deriving DecidableEq, Repr

/-- A Distance Matrix response row (`rows[i].elements`). -/
structure DMRow where
  elements : List DMElement
deriving DecidableEq, Repr

/-- A resolved Distance Matrix response (`response.rows`). -/
structure DMResponse where
  rows : List DMRow
deriving DecidableEq, Repr

/-- JS `a || b` for string-valued expressions: `undefined` and `""` are
falsy. -/
def jsOrStr (a b : Option String) : Option String :=
  match a with
  | some s => if s = "" then b else some s
  | none => b

/-- `places.map((p, idx) => ...)`: map with the element's index. -/
def mapWithIndex {α β : Type} (f : Nat → α → β) : Nat → List α → List β
  | _, [] => []
  | i, a :: as => f i a :: mapWithIndex f (i + 1) as

/-- The body of the haversine-fallback `places.map` in
`computeDistancesIfEnabled`: with a known origin and a known place
coordinate, straight-line distance and its formatted text are attached
(overwriting any previous values); otherwise both distance fields are
cleared to `undefined`.  `durationText` is never touched here. -/
def haversineEnrichPlace (M : MathPrims) (origin? : Option Coord) (p : Place) : Place :=
  let meters? : Option ℚ :=
    match origin?, p.position with
    | some o, some pos => some (haversineMeters M o.lat o.lng pos.lat pos.lng)
    | _, _ => none
  { p with
    distanceMeters := meters?
    distanceText := meters?.map (fun m => formatDistance (.num m)) }

/-- The haversine-fallback branch of `computeDistancesIfEnabled`
(`const origin = origins[0]; return places.map(...)`). -/
def haversineFallback (M : MathPrims) (origins : List Coord) (places : List Place) :
    List Place :=
  places.map (haversineEnrichPlace M origins.head?)

/-- The body of the success-path `places.map((p, idx) => ...)` in
`computeDistancesIfEnabled`: element `idx` of the response row enriches
place `idx`; a missing element or missing fields leave the corresponding
output fields `undefined`, and `distanceText` falls back to formatting
the numeric value when the provider text is falsy. -/
def dmEnrichAt (distances : List DMElement) (idx : Nat) (p : Place) : Place :=
  let el? := distances[idx]?
  let dmMeters : Option ℚ := el?.bind (fun el => el.distance.bind (fun d => d.value))
  let dmText : Option String := el?.bind (fun el => el.distance.bind (fun d => d.text))
  let durText : Option String := el?.bind (fun el => el.duration)
  { p with
    distanceMeters := dmMeters
    distanceText := jsOrStr dmText (dmMeters.map (fun m => formatDistance (.num m)))
    durationText := durText }

/-- Embedding of `computeDistancesIfEnabled` from
`src/services/placesService.js`.  `flags` is the parsed feature-flag
mapping (`Boolean(flags.enableDistanceMatrix)` is a lookup defaulting to
`false`); `dm` is the outcome of the Distance Matrix call, only consulted
when the network-aware branch is taken.  `response.rows?.[0]?.elements || []`
is `rows.headD ⟨[]⟩ |>.elements`. -/
def computeDistancesIfEnabled (M : MathPrims) (flags : List (String × Bool))
    (origins : List Coord) (places : List Place) (dm : Except Unit DMResponse) :
    List Place :=
  let enableDM := (lookupFlag flags "enableDistanceMatrix").getD false
  if enableDM = true ∧ origins ≠ [] ∧ places ≠ [] then
    match dm with
    | .ok response =>
        let distances := (response.rows.headD ⟨[]⟩).elements
        mapWithIndex (fun idx p => dmEnrichAt distances idx p) 0 places
    | .error _ => haversineFallback M origins places
  else haversineFallback M origins places

/-! Concrete inputs used to evaluate the model in witnesses and
counterexamples. -/

/-- A concrete origin coordinate. -/
def demoOrigin : Coord := ⟨0, 0⟩

/-- A concrete raw place as returned by the nearby search. -/
def demoPlace : Place := { place_id := "p1", name := "Alpha Station", position := some ⟨1, 2⟩ }

/-- A second concrete raw place. -/
def demoPlace2 : Place := { place_id := "p2", name := "Beta Station", position := some ⟨3, 4⟩ }

/-- A fully populated Distance Matrix element. -/
def fullElement : DMElement :=
  { distance := some ⟨some 12345, some "12.3 km"⟩, duration := some "14 min" }

/-- An overall-OK Distance Matrix response whose second element failed
(per-element error: no `distance` object). -/
def partialResp : DMResponse := ⟨[⟨[fullElement, ⟨none, none⟩]⟩]⟩

/-- A flag mapping with the Distance Matrix feature enabled. -/
def demoFlags : List (String × Bool) := [("enableDistanceMatrix", true)]

/-! ### Map view: markers and the fetch+enrich cycle
(`src/components/MapView.jsx`)

The `fetchStations` effect is modelled as a small event system.  Each run
of the effect (triggered by a change of `center`, `userLocation` or
`flags`) is a *cycle*; React runs the previous effect's cleanup
(`alive = false`) before the next effect body, so a cycle's results are
applied exactly when no newer cycle has been triggered — i.e. when the
cycle is still the last one.  The network work of cycle `i` finishing is
the event `complete i`; its outcome (the enriched list, or a failure of
the search/enrich promise chain) is fixed at trigger time, faithfully to
the code where the outcome depends only on the cycle's own inputs. -/

/-- `google.maps.Animation.BOUNCE`, the only animation the source uses. -/
inductive MarkerAnim where
  | bounce
deriving DecidableEq, Repr

/-- A `google.maps.Marker` as the source configures it: created with
`position` and `title := place.name`; `placeId` records the place the
marker's click-closure captured; `handle` is a creation identity so that
"updated in place" and "destroyed and recreated" are distinguishable. -/
structure Marker where
  handle : Nat
  placeId : String
  title : String
  pos : Option Coord
  anim : Option MarkerAnim := none
deriving DecidableEq, Repr

/-- The marker bookkeeping of `MapView`: `live` is `markersRef.current`,
`destroyed` collects handles that got `setMap(null)`, and `nextHandle`
numbers marker creations. -/
structure MarkerState where
  nextHandle : Nat
  live : List Marker
  destroyed : List Nat
deriving DecidableEq, Repr

/-- The initial marker state (`markersRef.current = []`). -/
def initMarkers : MarkerState := ⟨0, [], []⟩

/-- The marker-painting block of `fetchStations`:

    markersRef.current.forEach(m => m.setMap(null));
    markersRef.current = [];
    enriched.forEach((place) => { const marker = new google.maps.Marker(...);
                                  markersRef.current.push(marker); });

every existing marker is destroyed and a fresh marker is created for
every place of the new result set. -/
def paintMarkers (ms : MarkerState) (places : List Place) : MarkerState :=
  { nextHandle := ms.nextHandle + places.length
    live := mapWithIndex (fun i p =>
      { handle := ms.nextHandle + i, placeId := p.place_id, title := p.name,
        pos := p.position, anim := none }) 0 places
    destroyed := ms.destroyed ++ ms.live.map (fun m => m.handle) }

/-- JS truthiness of a string-or-undefined value (`''` is falsy). -/
def jsTruthyStr : Option String → Bool
  | none => false
  | some s => s ≠ ""

/-- `markersRef.current.forEach(m => m.setAnimation(null))`. -/
def clearAnimations (markers : List Marker) : List Marker :=
  markers.map (fun m => { m with anim := none })

/-- The selection of the highlight effect:
`markersRef.current.find(m => m.getTitle && m.getTitle() && selectedStationId)`
with `selectedStationId` already known truthy — i.e. the FIRST marker with
a truthy (nonempty) title — receives `setAnimation(BOUNCE)`. -/
def bounceFirstTitled : List Marker → List Marker
  | [] => []
  | m :: rest =>
      if m.title ≠ "" then { m with anim := some .bounce } :: rest
      else m :: bounceFirstTitled rest

/-- The highlight effect of `MapView` (the `useEffect` over
`selectedStationId`): clear every animation, then, when a selected id is
set and markers exist and the map handle is present, bounce the marker
the `find` picks. -/
def highlightSelected (markers : List Marker) (selectedId : Option String)
    (mapReady : Bool) : List Marker :=
  let cleared := clearAnimations markers
  if jsTruthyStr selectedId = true ∧ markers.length > 0 then
    if mapReady = true then bounceFirstTitled cleared else cleared
  else cleared

/-- The outcome a fetch+enrich cycle will deliver: the enriched station
list, or a failure of the search/enrich promise chain. -/
inductive FetchOutcome where
  | ok (stations : List Place)
  | fail
deriving DecidableEq, Repr

/-- An event of the controller: a new cycle being triggered (dependency
change re-runs the effect), or the network work of cycle `i` finishing. -/
inductive Ev where
  | trigger (out : FetchOutcome)
  | complete (i : Nat)
deriving DecidableEq, Repr

/-- Whether an event is a trigger. -/
def isTrigger : Ev → Bool
  | .trigger _ => true
  | .complete _ => false

/-- The user-facing message of the catch branch of `fetchStations`. -/
def fetchErrorMsg : String := "Failed to load nearby stations. Please try again shortly."

/-- The station list `onStationsChanged` receives when a cycle's results
arrive: the enriched list on success, the empty list on failure. -/
def publishedStations : FetchOutcome → List Place
  | .ok l => l
  | .fail => []

/-- The error message accompanying the published list: cleared on success
(`App.handleStationsUpdate` sets `listError` to `''` when no message is
passed), the fetch error message on failure. -/
def publishedError : FetchOutcome → String
  | .ok _ => ""
  | .fail => fetchErrorMsg

/-- The controller state: `cycles` lists the outcome each triggered cycle
will deliver (so the current epoch is `cycles.length`, and cycle `i` is
still alive iff `i` is the last index); `stations`/`listError` are the
application state fed through `onStationsChanged`; `markers` the painted
markers. -/
structure Controller where
  cycles : List FetchOutcome
  stations : List Place
  listError : String
  markers : MarkerState
deriving DecidableEq, Repr

/-- The initial controller/application state. -/
def initController : Controller := ⟨[], [], "", initMarkers⟩

/-- What the arrival of a still-alive cycle's results does
(`if (!alive) return;` has already passed): on success publish the list,
clear the error and repaint the markers; on failure publish the empty
list with the user-facing message (the markers are not touched by the
catch branch). -/
def applyOutcome (s : Controller) : FetchOutcome → Controller
  | .ok l => { s with stations := l, listError := "", markers := paintMarkers s.markers l }
  | .fail => { s with stations := [], listError := fetchErrorMsg }

/-- One event step: a trigger appends a new cycle (making every older
cycle stale, as React's cleanup sets its `alive` to false before the new
effect body runs); a completion of cycle `i` applies its outcome exactly
when `i` is still the newest cycle, and is discarded otherwise. -/
def step (s : Controller) : Ev → Controller
  | .trigger out => { s with cycles := s.cycles ++ [out] }
  | .complete i =>
      match s.cycles.get? i with
      | some out => if i + 1 = s.cycles.length then applyOutcome s out else s
      | none => s

/-- Run a sequence of events. -/
def run (s : Controller) (es : List Ev) : Controller := es.foldl step s

/-- Claim C8: `formatDistance` renders every value under 1000 m as whole
meters ("N m") and every value at or above 1000 m in kilometers, with one
decimal place below 10 km and zero decimals at or above 10 km; in
particular `formatDistance 999 = "999 m"`, `formatDistance 1000 = "1.0 km"`,
`formatDistance 9999 = "10.0 km"`, and `formatDistance 10000 = "10 km"`. -/
theorem formatDistance_formatting_rule :
    (∀ q : ℚ,
      (q < 1000 → formatDistance (.num q) = toString (jsRound q) ++ " m") ∧
      (1000 ≤ q → q < 10000 →
        formatDistance (.num q) = toFixed1 (metersToKm q) ++ " km") ∧
      (10000 ≤ q →
        formatDistance (.num q) = toFixed0 (metersToKm q) ++ " km")) ∧
    formatDistance (.num 999) = "999 m" ∧
    formatDistance (.num 1000) = "1.0 km" ∧
    formatDistance (.num 9999) = "10.0 km" ∧
    formatDistance (.num 10000) = "10 km" := by
  refine ⟨fun q => ⟨fun h => ?_, fun h1 h2 => ?_, fun h => ?_⟩, ?_, ?_, ?_, ?_⟩
  · simp [formatDistance, h]
  · have hq : ¬ q < 1000 := not_lt.2 h1
    have hkm : metersToKm q < 10 := by
      have h3 : q / 1000 < 10 := (div_lt_iff₀ (by norm_num : (0:ℚ) < 1000)).2 (by linarith)
      simpa [metersToKm] using h3
    simp [formatDistance, hq, hkm]
  · have hq : ¬ q < 1000 := by linarith
    have hkm : ¬ metersToKm q < 10 := by
      rw [metersToKm, not_lt, le_div_iff₀ (by norm_num : (0:ℚ) < 1000)]
      linarith
    simp [formatDistance, hq, hkm]
  · simp only [formatDistance]
    norm_num [jsRound]
    decide
  · simp only [formatDistance]
    norm_num [toFixed1, metersToKm]
    decide
  · simp only [formatDistance]
    norm_num [toFixed1, metersToKm]
    decide
  · simp only [formatDistance]
    norm_num [toFixed0, metersToKm]
    decide

/-- Witness for C8: the hypotheses of each branch of the general rule are
satisfiable and the theorem evaluates at concrete inputs. -/
theorem formatDistance_formatting_rule_witness :
    ((500 : ℚ) < 1000 ∧ formatDistance (.num 500) = toString (jsRound 500) ++ " m") ∧
    ((1000 : ℚ) ≤ 2500 ∧ (2500 : ℚ) < 10000 ∧
      formatDistance (.num 2500) = toFixed1 (metersToKm 2500) ++ " km") ∧
    ((10000 : ℚ) ≤ 12000 ∧
      formatDistance (.num 12000) = toFixed0 (metersToKm 12000) ++ " km") :=
  ⟨⟨by norm_num, (formatDistance_formatting_rule.1 500).1 (by norm_num)⟩,
   ⟨by norm_num, by norm_num,
    (formatDistance_formatting_rule.1 2500).2.1 (by norm_num) (by norm_num)⟩,
   ⟨by norm_num, (formatDistance_formatting_rule.1 12000).2.2 (by norm_num)⟩⟩

/-- Claim C9: `formatDistance` is total over its public interface: for a
`null`, `undefined`, or `NaN` argument it returns the empty string rather
than throwing or producing a malformed string. -/
theorem formatDistance_total_on_non_numbers :
    formatDistance .null = "" ∧
    formatDistance .undef = "" ∧
    formatDistance .nan = "" :=
  ⟨rfl, rfl, rfl⟩

theorem lookupFlag_setFlag (m : List (String × Bool)) (k k' : String) (b : Bool) :
    lookupFlag (setFlag m k b) k' = if k = k' then some b else lookupFlag m k' := by
  induction m with
  | nil =>
      by_cases h : k = k' <;> simp [setFlag, lookupFlag, h]
  | cons kv rest ih =>
      obtain ⟨k₀, b₀⟩ := kv
      simp only [setFlag, lookupFlag]
      split_ifs <;> simp_all [lookupFlag]

theorem applyPair_eq (A : List (String × Bool)) (p : String) :
    applyPair A p = if pairKey p = "" then A else setFlag A (pairKey p) (pairTruth p) := by
  simp only [applyPair, pairKey, pairTruth]
  cases h : ((jsSplit (fun c => c = '=') p).map jsTrim)[1]? with
  | none => simp [h]
  | some v =>
      simp only [h]
      split_ifs <;> simp_all

theorem orElseOpt_none (a : Option Bool) : orElseOpt a none = a := by
  cases a <;> rfl

theorem lookupFlag_foldl (ps : List String) (acc : List (String × Bool)) (k : String)
    (hk : k ≠ "") :
    lookupFlag (ps.foldl applyPair acc) k =
      orElseOpt ((ps.reverse.find? (fun p => pairKey p = k)).map pairTruth)
        (lookupFlag acc k) := by
  induction ps using List.reverseRecOn with
  | nil => simp [orElseOpt]
  | append_singleton ps p ih =>
      simp only [List.foldl_append, List.foldl_cons, List.foldl_nil]
      rw [applyPair_eq, List.reverse_append]
      simp only [List.reverse_cons, List.reverse_nil, List.nil_append, List.singleton_append]
      by_cases hp : pairKey p = k
      · have hz : ¬ pairKey p = "" := by rw [hp]; exact hk
        rw [if_neg hz, lookupFlag_setFlag, if_pos hp,
          List.find?_cons_of_pos _ (by simp [hp])]
        simp [orElseOpt]
      · rw [List.find?_cons_of_neg _ (by simp [hp])]
        by_cases hz : pairKey p = ""
        · rw [if_pos hz, ih]
        · rw [if_neg hz, lookupFlag_setFlag, if_neg hp, ih]

/-- Claim C10: for every input, `parseFeatureFlags` returns a mapping whose
values are all booleans (the embedding's result type records that every
assignment in the source stores a boolean): a non-string or empty input
yields the empty mapping; and the value bound to any listed key is given
by `pairTruth` applied to the last pair that lists the key — `true` when
the pair has no `=` or an empty value, and for a pair with a nonempty
value `true` exactly when the value, lowercased, is `"true"`, `"1"` or
`"yes"` (every other value gives `false`).  Two concrete parses
illustrate the rule, including a `"false"` value mapping to `false`. -/
theorem parseFeatureFlags_boolean_rule :
    parseFeatureFlags none = [] ∧
    parseFeatureFlags (some "") = [] ∧
    (∀ s k, k ≠ "" →
      lookupFlag (parseFeatureFlags (some s)) k =
        ((pairList s).reverse.find? (fun p => pairKey p = k)).map pairTruth) ∧
    parseFeatureFlags (some "enableDistanceMatrix=true,foo=false") =
      [("enableDistanceMatrix", true), ("foo", false)] ∧
    parseFeatureFlags (some "a, b = ,c=YES;d=no,e=1") =
      [("a", true), ("b", true), ("c", true), ("d", false), ("e", true)] := by
  refine ⟨rfl, rfl, fun s k hk => ?_, by decide, by decide⟩
  by_cases hs : s = ""
  · subst hs
    simp [parseFeatureFlags, lookupFlag, show pairList "" = [] from rfl]
  · simp only [parseFeatureFlags]
    rw [if_neg hs, lookupFlag_foldl _ _ _ hk]
    simp [lookupFlag, orElseOpt_none]

/-- Witness for C10: the lookup characterization applied at the concrete
input `"x=no;x=YES"` and key `"x"` (the last pair wins and `"YES"`
lowercases to a truthy value). -/
theorem mapWithIndex_length {α β : Type} (f : ℕ → α → β) :
    ∀ (s : ℕ) (l : List α), (mapWithIndex f s l).length = l.length := by
  intro s l
  induction l generalizing s with
  | nil => rfl
  | cons a as ih => simp [mapWithIndex, ih]

theorem mapWithIndex_get? {α β : Type} (f : ℕ → α → β) :
    ∀ (s i : ℕ) (l : List α), (mapWithIndex f s l).get? i = (l.get? i).map (f (s + i)) := by
  intro s i l
  induction l generalizing s i with
  | nil => simp [mapWithIndex]
  | cons a as ih =>
      cases i with
      | zero => simp [mapWithIndex]
      | succ n =>
          simp only [mapWithIndex, List.get?]
          rw [show s + (n + 1) = (s + 1) + n by omega]
          exact ih (s + 1) n

theorem compute_eq_fallback (M : MathPrims) (flags : List (String × Bool))
    (origins : List Coord) (places : List Place) (dm : Except Unit DMResponse)
    (hcase : (lookupFlag flags "enableDistanceMatrix").getD false = false ∨
      origins = [] ∨ places = [] ∨ dm = Except.error ()) :
    computeDistancesIfEnabled M flags origins places dm =
      haversineFallback M origins places := by
  rcases hcase with h | h | h | h
  · simp [computeDistancesIfEnabled, h]
  · simp [computeDistancesIfEnabled, h]
  · simp [computeDistancesIfEnabled, h]
  · subst h
    simp only [computeDistancesIfEnabled]
    split_ifs with hc <;> rfl

theorem compute_eq_dmBranch (M : MathPrims) (flags : List (String × Bool))
    (origins : List Coord) (places : List Place) (resp : DMResponse)
    (hflag : (lookupFlag flags "enableDistanceMatrix").getD false = true)
    (ho : origins ≠ []) (hp : places ≠ []) :
    computeDistancesIfEnabled M flags origins places (.ok resp) =
      mapWithIndex (fun idx p => dmEnrichAt (resp.rows.headD ⟨[]⟩).elements idx p) 0 places := by
  simp [computeDistancesIfEnabled, hflag, ho, hp]

theorem parseFeatureFlags_boolean_rule_witness :
    ("x" : String) ≠ "" ∧
    lookupFlag (parseFeatureFlags (some "x=no;x=YES")) "x" =
      ((pairList "x=no;x=YES").reverse.find? (fun p => pairKey p = "x")).map pairTruth ∧
    lookupFlag (parseFeatureFlags (some "x=no;x=YES")) "x" = some true :=
  ⟨by decide,
   parseFeatureFlags_boolean_rule.2.2.1 "x=no;x=YES" "x" (by decide),
   by decide⟩

/-- Claim C3: whenever the network-aware distance method is not used
(feature flag off, origin unknown, empty input, or the network call
fails), enrichment falls back to the closed-form method: the output has
one place per input place, each output place with a known origin and a
known position gets `distanceMeters` equal to the haversine great-circle
distance from the origin to its position and a human-readable
`distanceText`, while `durationText` remains absent (the fallback never
sets it, and raw input places carry none); and if the origin is unknown,
all distance/duration fields remain absent for every place — the
function is total, so no error is raised. -/
theorem enrichment_fallback_closed_form
    (M : MathPrims) (flags : List (String × Bool)) (origins : List Coord)
    (places : List Place) (dm : Except Unit DMResponse)
    (hcase : (lookupFlag flags "enableDistanceMatrix").getD false = false ∨
      origins = [] ∨ places = [] ∨ dm = Except.error ())
    (hdur : ∀ p ∈ places, p.durationText = none) :
    (computeDistancesIfEnabled M flags origins places dm).length = places.length ∧
    ∀ i p, places.get? i = some p →
      ∃ o, (computeDistancesIfEnabled M flags origins places dm).get? i = some o ∧
        (∀ org pos, origins.head? = some org → p.position = some pos →
          o.distanceMeters = some (haversineMeters M org.lat org.lng pos.lat pos.lng) ∧
          o.distanceText =
            some (formatDistance (.num (haversineMeters M org.lat org.lng pos.lat pos.lng)))) ∧
        (origins.head? = none → o.distanceMeters = none ∧ o.distanceText = none) ∧
        o.durationText = none ∧
        o.place_id = p.place_id ∧ o.name = p.name ∧ o.position = p.position := by
  rw [compute_eq_fallback M flags origins places dm hcase]
  constructor
  · simp [haversineFallback]
  · intro i p hip
    refine ⟨haversineEnrichPlace M origins.head? p,
      by rw [haversineFallback, List.get?_map, hip]; rfl, ?_, ?_, ?_, rfl, rfl, rfl⟩
    · intro org pos horg hpos
      constructor <;> simp [haversineEnrichPlace, horg, hpos]
    · intro horg
      constructor <;> simp [haversineEnrichPlace, horg]
    · have hd := hdur p (List.get?_mem hip)
      simp [haversineEnrichPlace, hd]

/-- Witness for C3: the fallback applied to one concrete place with the
Distance Matrix call failing. -/
theorem enrichment_fallback_closed_form_witness :
    ((lookupFlag demoFlags "enableDistanceMatrix").getD false = false ∨
      [demoOrigin] = [] ∨ [demoPlace] = [] ∨
        (Except.error () : Except Unit DMResponse) = Except.error ()) ∧
    (∀ p ∈ [demoPlace], p.durationText = none) ∧
    ((computeDistancesIfEnabled zeroPrims demoFlags [demoOrigin] [demoPlace]
        (Except.error ())).length = [demoPlace].length ∧
      ∀ i p, [demoPlace].get? i = some p →
        ∃ o, (computeDistancesIfEnabled zeroPrims demoFlags [demoOrigin] [demoPlace]
            (Except.error ())).get? i = some o ∧
          (∀ org pos, [demoOrigin].head? = some org → p.position = some pos →
            o.distanceMeters = some (haversineMeters zeroPrims org.lat org.lng pos.lat pos.lng) ∧
            o.distanceText =
              some (formatDistance
                (.num (haversineMeters zeroPrims org.lat org.lng pos.lat pos.lng)))) ∧
          ([demoOrigin].head? = none → o.distanceMeters = none ∧ o.distanceText = none) ∧
          o.durationText = none ∧
          o.place_id = p.place_id ∧ o.name = p.name ∧ o.position = p.position) :=
  ⟨Or.inr (Or.inr (Or.inr rfl)), by decide,
   enrichment_fallback_closed_form zeroPrims demoFlags [demoOrigin] [demoPlace]
     (Except.error ()) (Or.inr (Or.inr (Or.inr rfl))) (by decide)⟩

/-- Claim C4: when the network-aware distance method succeeds, the output
has the same length as the input, and the output place at index `i`
carries exactly the `distanceMeters`, `distanceText` and `durationText`
taken from element `i` of the provider's response row (when that element
is fully populated with a nonempty text), with all identity fields of
the input place at index `i` preserved. -/
theorem enrichment_alignment
    (M : MathPrims) (flags : List (String × Bool)) (origins : List Coord)
    (places : List Place) (resp : DMResponse)
    (hflag : (lookupFlag flags "enableDistanceMatrix").getD false = true)
    (ho : origins ≠ []) (hp : places ≠ []) :
    (computeDistancesIfEnabled M flags origins places (.ok resp)).length = places.length ∧
    ∀ i p el v t d, places.get? i = some p →
      ((resp.rows.headD ⟨[]⟩).elements)[i]? = some el →
      el.distance = some ⟨some v, some t⟩ → t ≠ "" → el.duration = some d →
      (computeDistancesIfEnabled M flags origins places (.ok resp)).get? i =
        some { p with distanceMeters := some v, distanceText := some t,
                      durationText := some d } := by
  rw [compute_eq_dmBranch M flags origins places resp hflag ho hp]
  constructor
  · exact mapWithIndex_length _ 0 places
  · intro i p el v t d hip hel hdist ht hdu
    rw [List.headD_eq_head?] at hel
    rw [mapWithIndex_get? _ 0 i places, hip]
    simp [dmEnrichAt, Nat.zero_add, hel, hdist, hdu, jsOrStr, ht]

/-- Witness for C4: a one-place list aligned with a one-element response. -/
theorem enrichment_alignment_witness :
    ((lookupFlag demoFlags "enableDistanceMatrix").getD false = true ∧
      ([demoOrigin] : List Coord) ≠ [] ∧ ([demoPlace] : List Place) ≠ []) ∧
    (computeDistancesIfEnabled zeroPrims demoFlags [demoOrigin] [demoPlace]
        (.ok ⟨[⟨[fullElement]⟩]⟩)).get? 0 =
      some { demoPlace with distanceMeters := some 12345, distanceText := some "12.3 km",
                            durationText := some "14 min" } :=
  ⟨⟨rfl, by decide, by decide⟩,
   (enrichment_alignment zeroPrims demoFlags [demoOrigin] [demoPlace] ⟨[⟨[fullElement]⟩]⟩
       rfl (by decide) (by decide)).2 0 demoPlace fullElement 12345 "12.3 km" "14 min"
     rfl rfl rfl (by decide) rfl⟩

/-- Counterexample to claim C7 as stated: with the Distance Matrix call
overall successful but its second element failed (no distance object),
enrichment does NOT equal the wholesale haversine fallback for the batch
(the first place keeps its provider-sourced duration text, which the
fallback never sets). -/
theorem dm_partial_failure_not_wholesale :
    computeDistancesIfEnabled zeroPrims demoFlags [demoOrigin] [demoPlace, demoPlace2]
        (.ok partialResp) ≠
      haversineFallback zeroPrims [demoOrigin] [demoPlace, demoPlace2] := by
  intro h
  have h0 : ((computeDistancesIfEnabled zeroPrims demoFlags [demoOrigin]
      [demoPlace, demoPlace2] (.ok partialResp)).get? 0).map Place.durationText =
      some (some "14 min") := rfl
  rw [h] at h0
  have h1 : ((haversineFallback zeroPrims [demoOrigin] [demoPlace, demoPlace2]).get? 0).map
      Place.durationText = some none := rfl
  rw [h1] at h0
  simp at h0

/-- Claim C7 (amended): when the provider response is overall successful
but individual elements carry missing distance values, enrichment keeps
per-element results — a failing element leaves its place's distance
fields absent (its duration text, if any, is still taken) while other
elements keep their provider values — and the wholesale haversine
fallback for the entire batch is applied (only) when the call as a whole
fails. -/
theorem dm_partial_failure_per_element
    (M : MathPrims) (flags : List (String × Bool)) (origins : List Coord)
    (places : List Place) (resp : DMResponse)
    (hflag : (lookupFlag flags "enableDistanceMatrix").getD false = true)
    (ho : origins ≠ []) (hp : places ≠ []) :
    (∀ i p el, places.get? i = some p →
      ((resp.rows.headD ⟨[]⟩).elements)[i]? = some el →
      el.distance = none →
      (computeDistancesIfEnabled M flags origins places (.ok resp)).get? i =
        some { p with distanceMeters := none, distanceText := none,
                      durationText := el.duration }) ∧
    computeDistancesIfEnabled M flags origins places (.error ()) =
      haversineFallback M origins places := by
  constructor
  · intro i p el hip hel hdist
    rw [List.headD_eq_head?] at hel
    rw [compute_eq_dmBranch M flags origins places resp hflag ho hp,
      mapWithIndex_get? _ 0 i places, hip]
    simp [dmEnrichAt, Nat.zero_add, hel, hdist, jsOrStr]
  · exact compute_eq_fallback M flags origins places _ (Or.inr (Or.inr (Or.inr rfl)))

theorem get?_some_lt {α : Type} : ∀ (l : List α) (i : ℕ) (a : α),
    l.get? i = some a → i < l.length := by
  intro l
  induction l with
  | nil => intro i a h; simp [List.get?] at h
  | cons x xs ih =>
      intro i a h
      cases i with
      | zero => simp only [List.length_cons]; omega
      | succ n =>
          have hlt := ih n a h
          simp only [List.length_cons]
          omega

theorem mem_mapWithIndex {α β : Type} (f : ℕ → α → β) :
    ∀ (s : ℕ) (l : List α) (b : β),
      b ∈ mapWithIndex f s l ↔ ∃ i a, l.get? i = some a ∧ b = f (s + i) a := by
  intro s l
  induction l generalizing s with
  | nil => intro b; simp [mapWithIndex]
  | cons x xs ih =>
      intro b
      simp only [mapWithIndex, List.mem_cons]
      constructor
      · rintro (rfl | hb)
        · exact ⟨0, x, rfl, by simp⟩
        · obtain ⟨i, a, hia, rfl⟩ := (ih (s + 1) b).1 hb
          exact ⟨i + 1, a, hia, by rw [show s + (i + 1) = (s + 1) + i by omega]⟩
      · rintro ⟨i, a, hia, rfl⟩
        cases i with
        | zero =>
            left
            have hx : x = a := by simpa [List.get?] using hia
            subst hx
            simp
        | succ n =>
            right
            exact (ih (s + 1) _).2 ⟨n, a, hia, by rw [show s + (n + 1) = (s + 1) + n by omega]⟩

theorem map_mapWithIndex {α β γ : Type} (f : ℕ → α → β) (g : β → γ) (k : α → γ)
    (hgf : ∀ i a, g (f i a) = k a) :
    ∀ (s : ℕ) (l : List α), (mapWithIndex f s l).map g = l.map k := by
  intro s l
  induction l generalizing s with
  | nil => rfl
  | cons x xs ih => simp [mapWithIndex, hgf, ih]

theorem paintMarkers_ids (ms : MarkerState) (places : List Place) :
    (paintMarkers ms places).live.map (fun m => m.placeId) =
      places.map (fun p => p.place_id) := by
  have h := map_mapWithIndex
    (fun i p => ({ handle := ms.nextHandle + i, placeId := p.place_id,
                   title := p.name, pos := p.position, anim := none } : Marker))
    (fun m => m.placeId) (fun p => p.place_id) (fun _ _ => rfl) 0 places
  exact h

theorem paintMarkers_mem_handle (ms : MarkerState) (places : List Place) (m : Marker)
    (hm : m ∈ (paintMarkers ms places).live) :
    ms.nextHandle ≤ m.handle ∧ m.handle < ms.nextHandle + places.length := by
  obtain ⟨i, p, hip, rfl⟩ := (mem_mapWithIndex _ 0 places m).1 hm
  have hi := get?_some_lt places i p hip
  constructor
  · show ms.nextHandle ≤ ms.nextHandle + (0 + i)
    omega
  · show ms.nextHandle + (0 + i) < ms.nextHandle + places.length
    omega

theorem applyOutcome_cycles (s : Controller) (out : FetchOutcome) :
    (applyOutcome s out).cycles = s.cycles := by
  cases out <;> rfl

theorem step_complete_cycles (s : Controller) (i : ℕ) :
    (step s (.complete i)).cycles = s.cycles := by
  cases hg : s.cycles.get? i with
  | none => simp only [step, hg]
  | some out =>
      simp only [step, hg]
      split_ifs with hc
      · exact applyOutcome_cycles s out
      · rfl

theorem step_stale (t : Controller) (i : ℕ) (h : i + 1 ≠ t.cycles.length) :
    step t (.complete i) = t := by
  cases hg : t.cycles.get? i with
  | none => simp only [step, hg]
  | some out =>
      simp only [step, hg]
      rw [if_neg h]

theorem run_cons (s : Controller) (e : Ev) (es : List Ev) :
    run s (e :: es) = run (step s e) es := rfl

theorem run_append (s : Controller) (es₁ es₂ : List Ev) :
    run s (es₁ ++ es₂) = run (run s es₁) es₂ := by
  simp [run, List.foldl_append]

theorem applyOutcome_pub (s : Controller) (out : FetchOutcome) :
    (applyOutcome s out).stations = publishedStations out ∧
    (applyOutcome s out).listError = publishedError out ∧
    ∀ l, out = .ok l →
      (applyOutcome s out).markers.live.map (fun m => m.placeId) =
        l.map (fun p => p.place_id) := by
  cases out with
  | ok l =>
      refine ⟨rfl, rfl, ?_⟩
      rintro l' hl'
      have h : l = l' := by injection hl'
      subst h
      exact paintMarkers_ids s.markers l
  | fail => exact ⟨rfl, rfl, fun l h => by cases h⟩

theorem run_keeps_pub (es : List Ev) :
    ∀ (s : Controller) (n : ℕ) (out : FetchOutcome),
      (∀ e ∈ es, isTrigger e = false) →
      s.cycles.get? n = some out → n + 1 = s.cycles.length →
      s.stations = publishedStations out →
      s.listError = publishedError out →
      (∀ l, out = .ok l →
        s.markers.live.map (fun m => m.placeId) = l.map (fun p => p.place_id)) →
      (run s es).stations = publishedStations out ∧
      (run s es).listError = publishedError out ∧
      (∀ l, out = .ok l →
        (run s es).markers.live.map (fun m => m.placeId) = l.map (fun p => p.place_id)) := by
  induction es with
  | nil => intro s n out _ _ _ h1 h2 h3; exact ⟨h1, h2, h3⟩
  | cons e rest ih =>
      intro s n out hnt hget hlen h1 h2 h3
      cases e with
      | trigger o =>
          have h := hnt _ (List.mem_cons_self _ _)
          simp [isTrigger] at h
      | complete j =>
          rw [run_cons]
          have hnt' : ∀ e ∈ rest, isTrigger e = false :=
            fun e he => hnt e (List.mem_cons_of_mem _ he)
          by_cases hj : j + 1 = s.cycles.length
          · have hjn : j = n := by omega
            subst hjn
            have hstep : step s (.complete j) = applyOutcome s out := by
              simp only [step, hget]
              rw [if_pos hj]
            rw [hstep]
            exact ih (applyOutcome s out) j out hnt'
              (by rw [applyOutcome_cycles]; exact hget)
              (by rw [applyOutcome_cycles]; exact hj)
              (applyOutcome_pub s out).1 (applyOutcome_pub s out).2.1
              (applyOutcome_pub s out).2.2
          · rw [step_stale s j hj]
            exact ih s n out hnt' hget hlen h1 h2 h3

theorem run_delivery (es : List Ev) :
    ∀ (s : Controller) (n : ℕ) (out : FetchOutcome),
      (∀ e ∈ es, isTrigger e = false) →
      s.cycles.get? n = some out → n + 1 = s.cycles.length →
      Ev.complete n ∈ es →
      (run s es).stations = publishedStations out ∧
      (run s es).listError = publishedError out ∧
      (∀ l, out = .ok l →
        (run s es).markers.live.map (fun m => m.placeId) = l.map (fun p => p.place_id)) := by
  induction es with
  | nil => intro s n out _ _ _ hmem; exact absurd hmem (List.not_mem_nil _)
  | cons e rest ih =>
      intro s n out hnt hget hlen hmem
      have hnt' : ∀ e ∈ rest, isTrigger e = false :=
        fun e he => hnt e (List.mem_cons_of_mem _ he)
      cases e with
      | trigger o =>
          have h := hnt _ (List.mem_cons_self _ _)
          simp [isTrigger] at h
      | complete j =>
          rw [run_cons]
          rcases List.mem_cons.mp hmem with heq | hmem'
          · have hnj : n = j := by injection heq
            subst hnj
            have hstep : step s (.complete n) = applyOutcome s out := by
              simp only [step, hget]
              rw [if_pos hlen]
            rw [hstep]
            exact run_keeps_pub rest (applyOutcome s out) n out hnt'
              (by rw [applyOutcome_cycles]; exact hget)
              (by rw [applyOutcome_cycles]; exact hlen)
              (applyOutcome_pub s out).1 (applyOutcome_pub s out).2.1
              (applyOutcome_pub s out).2.2
          · refine ih (step s (.complete j)) n out hnt' ?_ ?_ hmem'
            · rw [step_complete_cycles]; exact hget
            · rw [step_complete_cycles]; exact hlen

/-- Witness for amended C7: the failing second element of the concrete
partial response leaves the second place without distance fields. -/
theorem dm_partial_failure_per_element_witness :
    ((lookupFlag demoFlags "enableDistanceMatrix").getD false = true ∧
      ([demoOrigin] : List Coord) ≠ [] ∧
      ([demoPlace, demoPlace2] : List Place) ≠ []) ∧
    (computeDistancesIfEnabled zeroPrims demoFlags [demoOrigin] [demoPlace, demoPlace2]
        (.ok partialResp)).get? 1 =
      some { demoPlace2 with distanceMeters := none, distanceText := none,
                             durationText := none } :=
  ⟨⟨rfl, by decide, by decide⟩,
   (dm_partial_failure_per_element zeroPrims demoFlags [demoOrigin] [demoPlace, demoPlace2]
       partialResp rfl (by decide) (by decide)).1 1 demoPlace2 ⟨none, none⟩
     rfl rfl rfl⟩

/-- Claim C1: the results of cycle `n` are applied only if `n` is still the
current cycle when they arrive — a completion of any non-newest cycle
leaves the state untouched (first conjunct, the staleness guarantee) —
and for any run in which the last triggering event's cycle completes
(with arbitrary other completions around it, in any order), the final
published station list, error message and painted marker set equal the
result of that last triggering event. -/
theorem epoch_staleness_last_wins
    (s0 : Controller) (es₁ es₂ : List Ev) (out : FetchOutcome)
    (hnt : ∀ e ∈ es₂, isTrigger e = false)
    (hc : Ev.complete (run s0 es₁).cycles.length ∈ es₂) :
    (∀ (t : Controller) (i : ℕ), i + 1 ≠ t.cycles.length → step t (.complete i) = t) ∧
    (run s0 (es₁ ++ Ev.trigger out :: es₂)).stations = publishedStations out ∧
    (run s0 (es₁ ++ Ev.trigger out :: es₂)).listError = publishedError out ∧
    (∀ l, out = .ok l →
      (run s0 (es₁ ++ Ev.trigger out :: es₂)).markers.live.map (fun m => m.placeId) =
        l.map (fun p => p.place_id)) := by
  refine ⟨fun t i h => step_stale t i h, ?_⟩
  rw [run_append, run_cons]
  have hstep : step (run s0 es₁) (.trigger out) =
      { run s0 es₁ with cycles := (run s0 es₁).cycles ++ [out] } := rfl
  rw [hstep]
  apply run_delivery es₂ _ (run s0 es₁).cycles.length out hnt
  · exact List.get?_concat_length _ _
  · simp
  · exact hc

/-- Witness for C1: two overlapping cycles where the stale completion
arrives after the current one; the final state is the second cycle's. -/
theorem epoch_staleness_last_wins_witness :
    (∀ e ∈ ([.complete 1, .complete 0] : List Ev), isTrigger e = false) ∧
    Ev.complete (run initController [.trigger (.ok [demoPlace]), .complete 0]).cycles.length ∈
      ([.complete 1, .complete 0] : List Ev) ∧
    (run initController ([.trigger (.ok [demoPlace]), .complete 0] ++
        Ev.trigger (.ok [demoPlace2]) :: [.complete 1, .complete 0])).stations =
      [demoPlace2] ∧
    (run initController ([.trigger (.ok [demoPlace]), .complete 0] ++
        Ev.trigger (.ok [demoPlace2]) :: [.complete 1, .complete 0])).markers.live.map
        (fun m => m.placeId) = ["p2"] := by
  refine ⟨by decide, by decide, ?_, ?_⟩
  · have h := epoch_staleness_last_wins initController
      [.trigger (.ok [demoPlace]), .complete 0] [.complete 1, .complete 0]
      (.ok [demoPlace2]) (by decide) (by decide)
    simpa [publishedStations] using h.2.1
  · have h := epoch_staleness_last_wins initController
      [.trigger (.ok [demoPlace]), .complete 0] [.complete 1, .complete 0]
      (.ok [demoPlace2]) (by decide) (by decide)
    simpa [demoPlace2] using h.2.2.2 [demoPlace2] rfl

/-- Counterexample to claim C2 as stated: after a successful cycle
publishes one station, a failing cycle reports the user-facing message
but does NOT leave the previously published result set unchanged — the
station list is emptied (`onStationsChanged([], msg)` and
`App.handleStationsUpdate` unconditionally replace the list). -/
theorem error_cycle_empties_previous_results :
    (run initController [.trigger (.ok [demoPlace]), .complete 0]).stations = [demoPlace] ∧
    (run initController [.trigger (.ok [demoPlace]), .complete 0, .trigger .fail,
        .complete 1]).listError = fetchErrorMsg ∧
    (run initController [.trigger (.ok [demoPlace]), .complete 0, .trigger .fail,
        .complete 1]).stations = [] ∧
    (run initController [.trigger (.ok [demoPlace]), .complete 0, .trigger .fail,
        .complete 1]).stations ≠ [demoPlace] := by
  refine ⟨by decide, by decide, by decide, ?_⟩
  have h1 : (run initController [.trigger (.ok [demoPlace]), .complete 0, .trigger .fail,
      .complete 1]).stations = [] := by decide
  rw [h1]
  intro h
  simp at h

/-- Claim C2 (amended): when the fetch or enrich step of the still-current
cycle fails, the controller reports the user-facing error message to the
caller AND publishes the empty station list, replacing any previously
published result set; the painted markers are left unchanged (the catch
branch does not touch them). -/
theorem error_cycle_reports_and_empties
    (s : Controller) (i : ℕ)
    (hget : s.cycles.get? i = some .fail) (hcur : i + 1 = s.cycles.length) :
    step s (.complete i) = { s with stations := [], listError := fetchErrorMsg } := by
  simp only [step, hget]
  rw [if_pos hcur]
  rfl

/-- Witness for amended C2: a failing second cycle after a successful
first one. -/
theorem error_cycle_reports_and_empties_witness :
    (run initController [.trigger (.ok [demoPlace]), .complete 0,
        .trigger .fail]).cycles.get? 1 = some .fail ∧
    1 + 1 = (run initController [.trigger (.ok [demoPlace]), .complete 0,
        .trigger .fail]).cycles.length ∧
    step (run initController [.trigger (.ok [demoPlace]), .complete 0, .trigger .fail])
        (.complete 1) =
      { run initController [.trigger (.ok [demoPlace]), .complete 0, .trigger .fail] with
        stations := [], listError := fetchErrorMsg } :=
  ⟨by decide, by decide,
   error_cycle_reports_and_empties _ 1 (by decide) (by decide)⟩

/-- Counterexample to claim C5 as stated: reconciling with result set
`A = [demoPlace]` and then `B = [demoPlace]` (so `demoPlace.place_id` is in
both), there is NO marker handle for that id that survives in place — the
code destroys every marker and recreates it, so no live marker of the
second state shares a handle with the first state's marker without that
handle having been destroyed. -/
theorem marker_recreated_not_updated_in_place :
    ¬ ∃ m1, m1 ∈ (paintMarkers initMarkers [demoPlace]).live ∧
      ∃ m2, m2 ∈ (paintMarkers (paintMarkers initMarkers [demoPlace]) [demoPlace]).live ∧
        m1.placeId = "p1" ∧ m2.placeId = "p1" ∧ m2.handle = m1.handle ∧
        m1.handle ∉ (paintMarkers (paintMarkers initMarkers [demoPlace]) [demoPlace]).destroyed := by
  decide

/-- Claim C5 (amended): after reconciling the markers with result set A and
then with result set B, the live marker ids equal exactly B's ids (in B's
order); but the markers are not updated in place — every marker of the
first reconcile has its handle destroyed by the second, and no live
marker after the second reconcile reuses a handle from the first. -/
theorem marker_set_convergence_fresh
    (ms : MarkerState) (A B : List Place) :
    (paintMarkers (paintMarkers ms A) B).live.map (fun m => m.placeId) =
      B.map (fun p => p.place_id) ∧
    (∀ m ∈ (paintMarkers ms A).live,
      m.handle ∈ (paintMarkers (paintMarkers ms A) B).destroyed) ∧
    (∀ m ∈ (paintMarkers ms A).live,
      ∀ m2 ∈ (paintMarkers (paintMarkers ms A) B).live, m2.handle ≠ m.handle) := by
  refine ⟨paintMarkers_ids _ B, ?_, ?_⟩
  · intro m hm
    show m.handle ∈ (paintMarkers ms A).destroyed ++
      (paintMarkers ms A).live.map (fun m => m.handle)
    exact List.mem_append_right _ (List.mem_map_of_mem _ hm)
  · intro m hm m2 hm2
    have h1 := (paintMarkers_mem_handle ms A m hm).2
    have h2 := (paintMarkers_mem_handle (paintMarkers ms A) B m2 hm2).1
    have h3 : (paintMarkers ms A).nextHandle = ms.nextHandle + A.length := rfl
    rw [h3] at h2
    omega

/-- Witness for amended C5: concrete reconcile with `A = [demoPlace]` then
`B = [demoPlace2]`: live ids become exactly B's, and A's marker handle 0
is destroyed. -/
theorem marker_set_convergence_fresh_witness :
    (paintMarkers (paintMarkers initMarkers [demoPlace]) [demoPlace2]).live.map
        (fun m => m.placeId) = ["p2"] ∧
    ({ handle := 0, placeId := "p1", title := "Alpha Station", pos := some ⟨1, 2⟩,
       anim := none } : Marker) ∈ (paintMarkers initMarkers [demoPlace]).live ∧
    (0 : ℕ) ∈ (paintMarkers (paintMarkers initMarkers [demoPlace]) [demoPlace2]).destroyed :=
  ⟨by simpa [demoPlace2] using
      (marker_set_convergence_fresh initMarkers [demoPlace] [demoPlace2]).1,
   by decide,
   (marker_set_convergence_fresh initMarkers [demoPlace] [demoPlace2]).2.1
     { handle := 0, placeId := "p1", title := "Alpha Station", pos := some ⟨1, 2⟩,
       anim := none }
     (by decide)⟩

/-- Claim C6 fails on the code (code bug): the highlight effect's find
predicate (`m => m.getTitle && m.getTitle() && selectedStationId`) never
compares a marker against the selected id, so the FIRST titled marker is
bounced rather than the matching one.  At the failing input — two titled
markers, selection = the second marker's place id — the marker for `"p1"`
is highlighted and the selected `"p2"` marker is not, refuting the
claim's property at this input (second conjunct); with no selection, no
marker is highlighted (third conjunct, the part of the claim that does
hold). -/
theorem highlight_first_titled_not_matching :
    (highlightSelected
        [{ handle := 0, placeId := "p1", title := "Alpha Station", pos := some ⟨1, 2⟩,
           anim := none },
         { handle := 1, placeId := "p2", title := "Beta Station", pos := some ⟨3, 4⟩,
           anim := none }] (some "p2") true).map (fun m => (m.placeId, m.anim)) =
      [("p1", some MarkerAnim.bounce), ("p2", none)] ∧
    ¬ (∀ m ∈ highlightSelected
        [{ handle := 0, placeId := "p1", title := "Alpha Station", pos := some ⟨1, 2⟩,
           anim := none },
         { handle := 1, placeId := "p2", title := "Beta Station", pos := some ⟨3, 4⟩,
           anim := none }] (some "p2") true, (m.anim ≠ none ↔ m.placeId = "p2")) ∧
    (∀ m ∈ highlightSelected
        [{ handle := 0, placeId := "p1", title := "Alpha Station", pos := some ⟨1, 2⟩,
           anim := none },
         { handle := 1, placeId := "p2", title := "Beta Station", pos := some ⟨3, 4⟩,
           anim := none }] none true, m.anim = none) := by
  decide

end GasFinder
